import Mathlib

/-!
Verification of the low-rank Trotter step algorithm
(`openfermioncirq/trotter/algorithms/low_rank.py`).

The Python module is shallowly embedded below.  Matrices handed to the
external basis-change primitive are kept abstract (a type `M` with an
identity, a product and a conjugate-transpose, mirroring `numpy.identity`,
`numpy.dot` and `.T.conj()`); coefficient matrices whose entries the code
reads are embedded concretely as lists of rows, with complex entries as
pairs `(re, im)` over an arbitrary ring `R` (the code only ever adds,
scales, negates and takes real parts of them).  Qubits are an arbitrary
type `Q`; a gate-emission generator becomes a `List` of emitted groups,
one entry per `yield` (the `for`-loop yields of single-qubit rotations
each count as one entry, matching the generator's elements).
-/

/-- Abstract interface to the matrix operations the code applies to
basis-change matrices: `idm n` is `numpy.identity(n)`, `mul` is
`numpy.dot`, `dag` is `.T.conj()`. -/
structure MatOps (M : Type) where
  idm : Nat → M
  mul : M → M → M
  dag : M → M

/-- Entry `m[p][q]` of a real coefficient matrix stored as a list of rows
(out-of-range reads default to `0`; the code never reads out of range). -/
def rentry {R : Type} [Ring R] (m : List (List R)) (p q : Nat) : R :=
  (m.getD p []).getD q 0

/-- Entry `m[p][q]` of a complex coefficient matrix stored as a list of
rows of `(re, im)` pairs. -/
def centry {R : Type} [Ring R] (m : List (List (R × R))) (p q : Nat) :
    R × R :=
  (m.getD p []).getD q ((0 : R), (0 : R))

/-- Elementwise sum of two complex matrices
(`hamiltonian.one_body_tensor + one_body_correction`). -/
def cmatAdd {R : Type} [Ring R] (a b : List (List (R × R))) :
    List (List (R × R)) :=
  a.zipWith (fun ra rb =>
    ra.zipWith (fun x y => (x.1 + y.1, x.2 + y.2)) rb) b

/-- Scale a complex matrix by a real eigenvalue and take real parts:
`numpy.real(eigenvalues[j] * density_density_matrix)` (for a real
eigenvalue, `Re (lam * z) = lam * Re z`). -/
def scaleRe {R : Type} [Ring R] (lam : R) (dd : List (List (R × R))) :
    List (List R) :=
  dd.map (fun row => row.map (fun z => lam * z.1))

/-- The data of an `openfermion.InteractionOperator`: a scalar constant,
an `N x N` complex one-body tensor, and an opaque two-body tensor (type
parameter `T`), which the code only ever forwards to the decomposition
provider. -/
structure InteractionOperatorData (R T : Type) where
  constant : R
  one_body_tensor : List (List (R × R))
  two_body_tensor : T
deriving DecidableEq

/-- Result of the external `low_rank_two_body_decomposition` call: the
ordered eigenvalues, the corresponding one-body-squared operators (opaque,
type parameter `S`, only ever forwarded to the basis preparer), and the
one-body correction matrix.  The Python call also returns a fourth value
which `LowRankTrotterStep.__init__` discards. -/
structure LowRankDecomposition (R S : Type) where
  eigenvalues : List R
  one_body_squares : List S
  one_body_correction : List (List (R × R))

/-- The state stored by `LowRankTrotterStep.__init__` (low_rank.py lines
105-137): eigenvalues, effective one-body coefficients, the constant term,
and the per-term cached scaled density-density and basis-change
matrices. -/
structure LowRankTrotterStep (Q M R : Type) where
  eigenvalues : List R
  one_body_coefficients : List (List (R × R))
  constant : R
  scaled_density_density_matrices : List (List (List R))
  basis_change_matrices : List M
deriving DecidableEq

/-- `LowRankTrotterStep.__init__` (low_rank.py lines 107-137): invoke the
decomposition provider once on `hamiltonian.two_body_tensor` with the
stored truncation threshold, final rank and spin-basis flag; set
`one_body_coefficients = hamiltonian.one_body_tensor +
one_body_correction`; store the constant; then, for each eigenvalue in
order, call the basis preparer on the matching one-body-squared operator
and cache `numpy.real(eigenvalue * density_density_matrix)` together with
the basis-change matrix (the per-index loop over parallel equal-length
provider sequences is the zip of the two lists). -/
def LowRankTrotterStep.build {Q M R T S : Type} [Ring R]
    (hamiltonian : InteractionOperatorData R T)
    (truncation_threshold : R) (final_rank : Option Nat)
    (spin_basis : Bool)
    (decompose : T → R → Option Nat → Bool → LowRankDecomposition R S)
    (prepare : S → List (List (R × R)) × M) :
    LowRankTrotterStep Q M R :=
  let dec := decompose hamiltonian.two_body_tensor truncation_threshold
      final_rank spin_basis
  let pairs := (dec.eigenvalues.zip dec.one_body_squares).map
      (fun es => ((scaleRe es.1 (prepare es.2).1, (prepare es.2).2) :
        List (List R) × M))
  { eigenvalues := dec.eigenvalues
    one_body_coefficients :=
      cmatAdd hamiltonian.one_body_tensor dec.one_body_correction
    constant := hamiltonian.constant
    scaled_density_density_matrices := pairs.map Prod.fst
    basis_change_matrices := pairs.map Prod.snd }

/-- One emitted group per generator element of the Python `trotter_step` /
`finish` generators.  Swap-network groups record the qubit ordering they
were called with together with the data captured by the per-pair gate
closure (the coefficient matrix and the time); rotation groups record the
angle argument and target qubit(s); `bogoliubov` records the qubit
ordering and the matrix argument. -/
inductive Op (Q M R : Type) where
  /-- `swap_network(qubits, lambda p q a b: XXYYGate(duration =
  one_body_coefficients[p, q].real * time).on(a, b), fermionic=True)`. -/
  | fswapXXYY (qubits : List Q) (coeffs : List (List (R × R))) (time : R)
  /-- `cirq.RotZGate(rads=r).on(q)`. -/
  | rotZ (rads : R) (q : Q)
  /-- `bogoliubov_transform(qubits, m)`. -/
  | bogoliubov (qubits : List Q) (m : M)
  /-- `swap_network(qubits, lambda p q a b: cirq.Rot11Gate(rads =
  -2 * two_body_coefficients[p, q] * time).on(a, b))`. -/
  | swapRot11 (qubits : List Q) (coeffs : List (List R)) (time : R)
  /-- `swap_network(qubits, fermionic=True)` with no gate closure (the
  bare mode-unswapping pass of `finish`). -/
  | fswapBare (qubits : List Q)
  /-- `swap_network(qubits)` with no gate closure (the bare qubit
  reordering pass of `finish`). -/
  | swapBare (qubits : List Q)
  /-- `swap_network(qubits, lambda p q a b: ControlledXXYYGate(duration =
  one_body_coefficients[p, q].real * time).on(control, a, b),
  fermionic=True)`. -/
  | cfswapXXYY (control : Q) (qubits : List Q)
      (coeffs : List (List (R × R))) (time : R)
  /-- `cirq.Rot11Gate(rads=r).on(control, q)`. -/
  | rot11 (rads : R) (control : Q) (q : Q)
  /-- `swap_network(qubits, lambda p q a b: Rot111Gate(rads =
  -2 * two_body_coefficients[p, q] * time).on(control, a, b))`. -/
  | cswapRot111 (control : Q) (qubits : List Q)
      (coeffs : List (List R)) (time : R)
deriving DecidableEq

/-- The kind tag of an emitted group, for counting shapes of emissions. -/
inductive OpKind where
  | fswapXXYY
  | rotZ
  | bogoliubov
  | swapRot11
  | fswapBare
  | swapBare
  | cfswapXXYY
  | rot11
  | cswapRot111
deriving DecidableEq

/-- Kind of an emitted group. -/
def Op.kind {Q M R : Type} : Op Q M R → OpKind
  | .fswapXXYY _ _ _ => .fswapXXYY
  | .rotZ _ _ => .rotZ
  | .bogoliubov _ _ => .bogoliubov
  | .swapRot11 _ _ _ => .swapRot11
  | .fswapBare _ => .fswapBare
  | .swapBare _ => .swapBare
  | .cfswapXXYY _ _ _ _ => .cfswapXXYY
  | .rot11 _ _ _ => .rot11
  | .cswapRot111 _ _ _ _ => .cswapRot111

/-- The matrix argument of a `bogoliubov_transform` group, if the group is
one. -/
def Op.bogoMat {Q M R : Type} : Op Q M R → Option M
  | .bogoliubov _ m => some m
  | _ => none

/-- The per-term loop data of `trotter_step`: the code iterates `j` over
`range(len(self.eigenvalues))` reading
`scaled_density_density_matrices[j]` and `basis_change_matrices[j]`,
i.e. it walks the zip of the two cached lists for the first
`len(eigenvalues)` indices (on objects made by the constructor all three
lists have equal length, so this is the whole zip). -/
def lowRankTerms {Q M R : Type} (s : LowRankTrotterStep Q M R) :
    List ((List (List R)) × M) :=
  (s.scaled_density_density_matrices.zip s.basis_change_matrices).take
    s.eigenvalues.length

/-- The body of the `for j in range(len(self.eigenvalues))` loop of
`AsymmetricLowRankTrotterStep.trotter_step` (lines 168-194) followed by
the final `bogoliubov_transform` of line 197, with the running
`prior_basis_matrix` and the current (reversal-tracked) qubit ordering
passed explicitly: per term, emit `bogoliubov_transform(qubits,
prior . dag(basis_change_matrix))`, the `Rot11` swap network, then after
`qubits = qubits[::-1]` one `RotZ(-dd[p, p] * time)` on each
`qubits[p]`; the next iteration starts from the reversed ordering with
`prior = basis_change_matrix`. -/
def twoBodyOps {Q M R : Type} [Ring R] (mops : MatOps M) (time : R) :
    List ((List (List R)) × M) → List Q → M → List (Op Q M R)
  | [], qubits, prior => [Op.bogoliubov qubits prior]
  | (dd, b) :: rest, qubits, prior =>
      Op.bogoliubov qubits (mops.mul prior (mops.dag b)) ::
      Op.swapRot11 qubits dd time ::
      ((qubits.reverse.enum.map
        (fun pq => Op.rotZ (-(rentry dd pq.1 pq.1) * time) pq.2)) ++
       twoBodyOps mops time rest qubits.reverse b)

/-- `AsymmetricLowRankTrotterStep.trotter_step` (lines 142-197): one
fermionic `XXYY` swap network over the input ordering; then, on the
reversed ordering, a `RotZ(-one_body_coefficients[p, p].real * time)` on
each `qubits[p]`; then the two-body term loop starting from
`prior_basis_matrix = numpy.identity(n_qubits)`. -/
def AsymmetricLowRankTrotterStep.trotter_step {Q M R : Type} [Ring R]
    (s : LowRankTrotterStep Q M R) (mops : MatOps M)
    (qubits : List Q) (time : R) : List (Op Q M R) :=
  Op.fswapXXYY qubits s.one_body_coefficients time ::
  ((qubits.reverse.enum.map (fun pq =>
      Op.rotZ (-(centry s.one_body_coefficients pq.1 pq.1).1 * time)
        pq.2)) ++
   twoBodyOps mops time (lowRankTerms s) qubits.reverse
     (mops.idm qubits.length))

/-- `AsymmetricLowRankTrotterStep.step_qubit_permutation` (lines 199-209):
if `len(self.eigenvalues) & 1` return `(qubits, None)`, else
`(qubits[::-1], None)`. -/
def AsymmetricLowRankTrotterStep.step_qubit_permutation {Q M R : Type}
    (s : LowRankTrotterStep Q M R) (qubits : List Q)
    (control_qubit : Option Q) : List Q × Option Q :=
  if s.eigenvalues.length % 2 = 1 then (qubits, none)
  else (qubits.reverse, none)

/-- `AsymmetricLowRankTrotterStep.finish` (lines 211-225): nothing when
`omit_final_swaps`; otherwise, when `n_steps & 1`, one bare fermionic swap
network, plus one bare plain swap network when `len(self.eigenvalues) &
1`. -/
def AsymmetricLowRankTrotterStep.finish {Q M R : Type}
    (s : LowRankTrotterStep Q M R) (qubits : List Q) (n_steps : Nat)
    (control_qubit : Option Q) (omit_final_swaps : Bool) :
    List (Op Q M R) :=
  if omit_final_swaps then []
  else if n_steps % 2 = 1 then
    Op.fswapBare qubits ::
      (if s.eigenvalues.length % 2 = 1 then [Op.swapBare qubits] else [])
  else []

/-- The two-body loop of `ControlledAsymmetricLowRankTrotterStep.
trotter_step` (lines 256-283) followed by the final
`bogoliubov_transform` of line 286, with the running prior matrix, the
current qubit ordering and the (already validated) control qubit passed
explicitly; identical to the uncontrolled loop except that the `Rot11`
swap network becomes a `Rot111` one and the diagonal rotations become
`Rot11(-dd[k, k] * time)` on `(control, qubits[k])`. -/
def ctwoBodyOps {Q M R : Type} [Ring R] (mops : MatOps M) (time : R)
    (control : Q) :
    List ((List (List R)) × M) → List Q → M → List (Op Q M R)
  | [], qubits, prior => [Op.bogoliubov qubits prior]
  | (dd, b) :: rest, qubits, prior =>
      Op.bogoliubov qubits (mops.mul prior (mops.dag b)) ::
      Op.cswapRot111 control qubits dd time ::
      ((qubits.reverse.enum.map (fun pq =>
          Op.rot11 (-(rentry dd pq.1 pq.1) * time) control pq.2)) ++
       ctwoBodyOps mops time control rest qubits.reverse b)

/-- `ControlledAsymmetricLowRankTrotterStep.trotter_step` (lines
230-289).  Modelled from the spec: the controlled gate primitives
(`ControlledXXYYGate(...).on(control_qubit, a, b)`, `Rot111Gate`,
`cirq.Rot11Gate(...).on(control_qubit, q)` and the final rotation
`.on(control_qubit)`), which live in repository modules not present here,
are "parameterized additionally by a control qubit", and invoking the
controlled variant without a control qubit "is a contract violation and
must fail fast"; so applying them with `control_qubit = None` is an
error, raised before any group is produced.  With a control qubit
present the emission mirrors the uncontrolled variant, with every
rotation controlled, followed by one extra
`cirq.RotZGate(rads=-self.constant * time).on(control_qubit)`. -/
def ControlledAsymmetricLowRankTrotterStep.trotter_step {Q M R : Type}
    [Ring R] (s : LowRankTrotterStep Q M R) (mops : MatOps M)
    (qubits : List Q) (time : R) (control_qubit : Option Q) :
    Except String (List (Op Q M R)) :=
  match control_qubit with
  | none => Except.error "the controlled Trotter step requires a control qubit"
  | some c => Except.ok
      (Op.cfswapXXYY c qubits s.one_body_coefficients time ::
       ((qubits.reverse.enum.map (fun pq =>
           Op.rot11 (-(centry s.one_body_coefficients pq.1 pq.1).1 * time)
             c pq.2)) ++
        (ctwoBodyOps mops time c (lowRankTerms s) qubits.reverse
          (mops.idm qubits.length) ++
         [Op.rotZ (-s.constant * time) c])))

/-- `ControlledAsymmetricLowRankTrotterStep.step_qubit_permutation`
(lines 291-301): as the uncontrolled one but passing `control_qubit`
through. -/
def ControlledAsymmetricLowRankTrotterStep.step_qubit_permutation
    {Q M R : Type} (s : LowRankTrotterStep Q M R) (qubits : List Q)
    (control_qubit : Option Q) : List Q × Option Q :=
  if s.eigenvalues.length % 2 = 1 then (qubits, control_qubit)
  else (qubits.reverse, control_qubit)

/-- `ControlledAsymmetricLowRankTrotterStep.finish` (lines 303-317):
textually identical to the uncontrolled `finish`. -/
def ControlledAsymmetricLowRankTrotterStep.finish {Q M R : Type}
    (s : LowRankTrotterStep Q M R) (qubits : List Q) (n_steps : Nat)
    (control_qubit : Option Q) (omit_final_swaps : Bool) :
    List (Op Q M R) :=
  if omit_final_swaps then []
  else if n_steps % 2 = 1 then
    Op.fswapBare qubits ::
      (if s.eigenvalues.length % 2 = 1 then [Op.swapBare qubits] else [])
  else []

/-- Type tags of Hamiltonians, for the factory's `supported_types`
declaration (`{InteractionOperator}`, line 67). -/
inductive HamiltonianKind where
  | interactionOperator
  | otherKind
deriving DecidableEq

/-- A Hamiltonian handed to the factory: either an actual
`InteractionOperator`, or a value of some other Hamiltonian type (opaque
payload `O`), which lacks the `two_body_tensor` / `one_body_tensor` /
`constant` attributes the constructor reads. -/
inductive HamiltonianInput (R T O : Type) where
  | interactionOperator (h : InteractionOperatorData R T)
  | other (payload : O)
deriving DecidableEq

/-- Type tag of a Hamiltonian input. -/
def HamiltonianInput.kind {R T O : Type} :
    HamiltonianInput R T O → HamiltonianKind
  | .interactionOperator _ => .interactionOperator
  | .other _ => .otherKind

/-- The configuration of `LowRankTrotterAlgorithm` (lines 69-84). -/
structure LowRankTrotterAlgorithm (R : Type) where
  truncation_threshold : R
  final_rank : Option Nat
  spin_basis : Bool
deriving DecidableEq

/-- `LowRankTrotterAlgorithm.supported_types = {InteractionOperator}`
(line 67). -/
def LowRankTrotterAlgorithm.supported_types : List HamiltonianKind :=
  [HamiltonianKind.interactionOperator]

/-- `LowRankTrotterAlgorithm.asymmetric` (lines 86-91): unconditionally
construct `AsymmetricLowRankTrotterStep(hamiltonian, ...)`; there is no
type check against `supported_types`, so on a Hamiltonian of any other
type the constructor's attribute reads (`hamiltonian.two_body_tensor`,
line 119) raise an `AttributeError`, which propagates; the declared
`Optional` sentinel `None` is never returned. -/
def LowRankTrotterAlgorithm.asymmetric {Q M R T S O : Type} [Ring R]
    (alg : LowRankTrotterAlgorithm R)
    (decompose : T → R → Option Nat → Bool → LowRankDecomposition R S)
    (prepare : S → List (List (R × R)) × M)
    (hamiltonian : HamiltonianInput R T O) :
    Except String (Option (LowRankTrotterStep Q M R)) :=
  match hamiltonian with
  | .interactionOperator h => Except.ok (some
      (LowRankTrotterStep.build h alg.truncation_threshold alg.final_rank
        alg.spin_basis decompose prepare))
  | .other _ =>
      Except.error "AttributeError: object has no attribute two_body_tensor"

/-- `LowRankTrotterAlgorithm.controlled_asymmetric` (lines 93-99): same
as `asymmetric` but building a `ControlledAsymmetricLowRankTrotterStep`
(in this embedding the two variants share the stored-state structure and
differ only in their emission functions). -/
def LowRankTrotterAlgorithm.controlled_asymmetric {Q M R T S O : Type}
    [Ring R] (alg : LowRankTrotterAlgorithm R)
    (decompose : T → R → Option Nat → Bool → LowRankDecomposition R S)
    (prepare : S → List (List (R × R)) × M)
    (hamiltonian : HamiltonianInput R T O) :
    Except String (Option (LowRankTrotterStep Q M R)) :=
  match hamiltonian with
  | .interactionOperator h => Except.ok (some
      (LowRankTrotterStep.build h alg.truncation_threshold alg.final_rank
        alg.spin_basis decompose prepare))
  | .other _ =>
      Except.error "AttributeError: object has no attribute two_body_tensor"

/-- Follows the spec's words for the basis-matrix bookkeeping of the
two-body loop: the prior basis matrix starts as the identity; term `j`'s
basis transformation is parameterized by the product of the prior matrix
and the conjugate transpose of term `j`'s basis-change matrix, after
which the prior becomes term `j`'s matrix; after the loop there is
exactly one final transformation parameterized by the last prior
matrix. -/
def specMergedBasisMatrices {M : Type} (mops : MatOps M) (prior : M) :
    List M → List M
  | [] => [prior]
  | b :: bs => mops.mul prior (mops.dag b) ::
      specMergedBasisMatrices mops b bs

/-- Single-qubit rotation groups contribute no `bogoliubov_transform`
matrices. -/
theorem filterMap_bogoMat_rotZ_map {Q M R : Type} (l : List (Nat × Q))
    (f : Nat × Q → R) :
    (l.map (fun pq => Op.rotZ (M := M) (f pq) pq.2)).filterMap
      Op.bogoMat = [] := by
  induction l with
  | nil => rfl
  | cons hd tl ih => simp [Op.bogoMat, ih]

/-- The `bogoliubov_transform` matrices emitted by the two-body loop are
exactly the spec-side merged-matrix sequence of the loop's basis-change
matrices. -/
theorem twoBodyOps_bogoMats {Q M R : Type} [Ring R] (mops : MatOps M)
    (time : R) (terms : List ((List (List R)) × M)) (qubits : List Q)
    (prior : M) :
    (twoBodyOps mops time terms qubits prior).filterMap Op.bogoMat =
      specMergedBasisMatrices mops prior (terms.map Prod.snd) := by
  induction terms generalizing qubits prior with
  | nil => rfl
  | cons hd tl ih =>
      obtain ⟨dd, b⟩ := hd
      simp [twoBodyOps, specMergedBasisMatrices, Op.bogoMat,
        List.filterMap_append, filterMap_bogoMat_rotZ_map, ih]

/-- The controlled two-body loop always ends in the final
`bogoliubov_transform` group that undoes the last basis change. -/
theorem ctwoBodyOps_ends_bogo {Q M R : Type} [Ring R] (mops : MatOps M)
    (time : R) (c : Q) (terms : List ((List (List R)) × M))
    (qubits : List Q) (prior : M) :
    ∃ pre qf m, ctwoBodyOps mops time c terms qubits prior =
      pre ++ [Op.bogoliubov qf m] := by
  induction terms generalizing qubits prior with
  | nil => exact ⟨[], qubits, prior, rfl⟩
  | cons hd tl ih =>
      obtain ⟨dd, b⟩ := hd
      obtain ⟨pre, qf, m, h⟩ := ih qubits.reverse b
      refine ⟨Op.bogoliubov qubits (mops.mul prior (mops.dag b)) ::
        Op.cswapRot111 c qubits dd time ::
        ((qubits.reverse.enum.map (fun pq =>
          Op.rot11 (-(rentry dd pq.1 pq.1) * time) c pq.2)) ++ pre),
        qf, m, ?_⟩
      simp [ctwoBodyOps, h]

/-- Claim C1, corrected.  For every step object, every qubit ordering and
every odd `n_steps = 2k + 1`, `finish` with `omit_final_swaps = False`
emits exactly one bare fermionic swap-network pass, followed by exactly
one bare non-fermionic swap-network pass if and only if the number of
eigenvalues J is odd (the code tests `len(self.eigenvalues) & 1`); both
the uncontrolled and the controlled variant behave this way. -/
theorem finish_odd_steps_passes {Q M R : Type}
    (s : LowRankTrotterStep Q M R) (qubits : List Q) (k : Nat)
    (c : Option Q) :
    AsymmetricLowRankTrotterStep.finish s qubits (2 * k + 1) c false =
      Op.fswapBare qubits ::
        (if s.eigenvalues.length % 2 = 1 then [Op.swapBare qubits]
         else []) ∧
    ControlledAsymmetricLowRankTrotterStep.finish s qubits (2 * k + 1) c
        false =
      Op.fswapBare qubits ::
        (if s.eigenvalues.length % 2 = 1 then [Op.swapBare qubits]
         else []) := by
  have hodd : (2 * k + 1) % 2 = 1 := by omega
  constructor <;>
    simp [AsymmetricLowRankTrotterStep.finish,
      ControlledAsymmetricLowRankTrotterStep.finish, hodd]

/-- Claim C1, counterexample to the claim as stated.  A concrete step
with J = 2 eigenvalues, called with `n_steps = 1` and
`omit_final_swaps = False`, emits only the single fermionic pass — not
the claimed two passes (the extra non-fermionic pass would require J
odd, not J even). -/
theorem finish_J2_one_step_counterexample :
    AsymmetricLowRankTrotterStep.finish
        (⟨[1, 2], [], 0, [], []⟩ : LowRankTrotterStep Nat Nat Int)
        [0, 1] 1 none false = [Op.fswapBare [0, 1]] ∧
    ([Op.fswapBare [0, 1]] : List (Op Nat Nat Int)).length ≠ 2 := by
  exact ⟨rfl, by decide⟩

/-- Claim C2.  For every step object and qubit ordering,
`step_qubit_permutation` (both variants) returns the input ordering
unchanged when the number of eigenvalues J is odd and the fully reversed
ordering when J is even. -/
theorem step_qubit_permutation_parity {Q M R : Type}
    (s : LowRankTrotterStep Q M R) (qubits : List Q) (c : Option Q) :
    (AsymmetricLowRankTrotterStep.step_qubit_permutation s qubits c).1 =
      (if s.eigenvalues.length % 2 = 1 then qubits
       else qubits.reverse) ∧
    (ControlledAsymmetricLowRankTrotterStep.step_qubit_permutation s
        qubits c).1 =
      (if s.eigenvalues.length % 2 = 1 then qubits
       else qubits.reverse) := by
  constructor <;>
  · simp only [AsymmetricLowRankTrotterStep.step_qubit_permutation,
      ControlledAsymmetricLowRankTrotterStep.step_qubit_permutation]
    split <;> rfl

/-- Claim C3.  For every step object (either variant), `finish` emits no
operations at all when `n_steps` is even (any `omit_final_swaps`) or
when `omit_final_swaps` is true (any `n_steps`); in particular a step
with J = 2 called with `n_steps = 2`, `omit_final_swaps = False` emits
nothing. -/
theorem finish_even_or_omitted_empty {Q M R : Type}
    (s : LowRankTrotterStep Q M R) (qubits : List Q) (c : Option Q) :
    (∀ k b, AsymmetricLowRankTrotterStep.finish s qubits (2 * k) c b =
      []) ∧
    (∀ n, AsymmetricLowRankTrotterStep.finish s qubits n c true = []) ∧
    (∀ k b, ControlledAsymmetricLowRankTrotterStep.finish s qubits
      (2 * k) c b = []) ∧
    (∀ n, ControlledAsymmetricLowRankTrotterStep.finish s qubits n c
      true = []) := by
  have heven : ∀ k : Nat, ¬((2 * k) % 2 = 1) := by omega
  refine ⟨fun k b => ?_, fun n => rfl, fun k b => ?_, fun n => rfl⟩ <;>
    simp [AsymmetricLowRankTrotterStep.finish,
      ControlledAsymmetricLowRankTrotterStep.finish, heven k]

/-- Claim C4.  In the uncontrolled `trotter_step`, the sequence of
matrices parameterizing the emitted `bogoliubov_transform` groups is
exactly the spec's threaded sequence: with the prior basis matrix
initialized to `numpy.identity(n_qubits)`, term j's group carries
`prior . dag(basis_change_matrix_j)` and sets `prior` to term j's
basis-change matrix, and after the loop exactly one final group carries
the last prior matrix. -/
theorem trotter_step_basis_matrices {Q M R : Type} [Ring R]
    (s : LowRankTrotterStep Q M R) (mops : MatOps M) (qubits : List Q)
    (time : R) :
    (AsymmetricLowRankTrotterStep.trotter_step s mops qubits
        time).filterMap Op.bogoMat =
      specMergedBasisMatrices mops (mops.idm qubits.length)
        ((lowRankTerms s).map Prod.snd) := by
  simp [AsymmetricLowRankTrotterStep.trotter_step, Op.bogoMat,
    List.filterMap_append, filterMap_bogoMat_rotZ_map,
    twoBodyOps_bogoMats]

/-- Claim C5.  For every controlled step and every call with a control
qubit, the emission ends with the final basis-undo
`bogoliubov_transform` group followed by exactly one single-qubit
Z-rotation on the control qubit whose angle argument is
`-constant * time`, independent of the number of decomposition terms. -/
theorem controlled_trotter_step_constant_phase {Q M R : Type} [Ring R]
    (s : LowRankTrotterStep Q M R) (mops : MatOps M) (qubits : List Q)
    (time : R) (c : Q) :
    ∃ pre qf m,
      ControlledAsymmetricLowRankTrotterStep.trotter_step s mops qubits
          time (some c) =
        Except.ok (pre ++ [Op.bogoliubov qf m,
          Op.rotZ (-s.constant * time) c]) := by
  obtain ⟨pre, qf, m, h⟩ := ctwoBodyOps_ends_bogo mops time c
    (lowRankTerms s) qubits.reverse (mops.idm qubits.length)
  refine ⟨Op.cfswapXXYY c qubits s.one_body_coefficients time ::
    ((qubits.reverse.enum.map (fun pq =>
        Op.rot11 (-(centry s.one_body_coefficients pq.1 pq.1).1 * time)
          c pq.2)) ++ pre), qf, m, ?_⟩
  simp [ControlledAsymmetricLowRankTrotterStep.trotter_step, h]

/-- Claim C6.  For every Hamiltonian and every decomposition provider,
the constructed step object's stored effective one-body coefficient
matrix is exactly the elementwise sum of the Hamiltonian's raw one-body
tensor and the correction matrix returned by the provider; in this pure
embedding `trotter_step`, `step_qubit_permutation` and `finish` only
read the step value, so the stored matrix cannot change after
construction. -/
theorem build_one_body_coefficients {Q M R T S : Type} [Ring R]
    (hamiltonian : InteractionOperatorData R T)
    (truncation_threshold : R) (final_rank : Option Nat)
    (spin_basis : Bool)
    (decompose : T → R → Option Nat → Bool → LowRankDecomposition R S)
    (prepare : S → List (List (R × R)) × M) :
    (LowRankTrotterStep.build hamiltonian truncation_threshold final_rank
        spin_basis decompose prepare :
      LowRankTrotterStep Q M R).one_body_coefficients =
      cmatAdd hamiltonian.one_body_tensor
        (decompose hamiltonian.two_body_tensor truncation_threshold
          final_rank spin_basis).one_body_correction := rfl

/-- Claim C7.  For a step with two qubits and a single decomposition
term (J = 1), whatever the stored coefficient values, `trotter_step`
emits exactly 8 groups, in this order: one fermionic swap-network pass,
two diagonal one-body Z-rotations, one basis transformation, one
(non-fermionic) two-body swap-network pass, two diagonal two-body
Z-rotations, and one final basis-undo transformation. -/
theorem trotter_step_shape_two_qubits_one_term {Q M R : Type} [Ring R]
    (mops : MatOps M) (q0 q1 : Q) (lam : R)
    (obc : List (List (R × R))) (const : R) (dd : List (List R)) (b : M)
    (time : R) :
    (AsymmetricLowRankTrotterStep.trotter_step
        (⟨[lam], obc, const, [dd], [b]⟩ : LowRankTrotterStep Q M R)
        mops [q0, q1] time).map Op.kind =
      [OpKind.fswapXXYY, OpKind.rotZ, OpKind.rotZ, OpKind.bogoliubov,
       OpKind.swapRot11, OpKind.rotZ, OpKind.rotZ,
       OpKind.bogoliubov] := rfl

/-- Claim C8, counterexample to the claim as stated.  Calling the
factory operations on a concrete Hamiltonian that is not an
`InteractionOperator` propagates the constructor's `AttributeError`
instead of returning the `None` sentinel. -/
theorem factory_unsupported_type_counterexample :
    (LowRankTrotterAlgorithm.asymmetric ⟨0, none, true⟩
        (fun (_ : Unit) (_ : Int) _ _ =>
          (⟨[], [], []⟩ : LowRankDecomposition Int Unit))
        (fun _ => ([], (0 : Nat))) (HamiltonianInput.other (0 : Nat)) :
      Except String (Option (LowRankTrotterStep Nat Nat Int))) =
      Except.error
        "AttributeError: object has no attribute two_body_tensor" ∧
    (LowRankTrotterAlgorithm.controlled_asymmetric ⟨0, none, true⟩
        (fun (_ : Unit) (_ : Int) _ _ =>
          (⟨[], [], []⟩ : LowRankDecomposition Int Unit))
        (fun _ => ([], (0 : Nat))) (HamiltonianInput.other (0 : Nat)) :
      Except String (Option (LowRankTrotterStep Nat Nat Int))) =
      Except.error
        "AttributeError: object has no attribute two_body_tensor" ∧
    (Except.error
        "AttributeError: object has no attribute two_body_tensor" :
      Except String (Option (LowRankTrotterStep Nat Nat Int))) ≠
      Except.ok none := by
  refine ⟨rfl, rfl, by simp⟩

/-- Claim C8, amended.  The factory operations perform no type check
against `supported_types`: on an `InteractionOperator` they return a
constructed step object, and on a Hamiltonian of any other type the
constructor's attribute access fails with an `AttributeError` that
propagates; the "not applicable" sentinel is never returned. -/
theorem factory_no_type_check {Q M R T S O : Type} [Ring R]
    (alg : LowRankTrotterAlgorithm R)
    (decompose : T → R → Option Nat → Bool → LowRankDecomposition R S)
    (prepare : S → List (List (R × R)) × M) (payload : O)
    (h : InteractionOperatorData R T) :
    (LowRankTrotterAlgorithm.asymmetric alg decompose prepare
        (HamiltonianInput.other payload) :
      Except String (Option (LowRankTrotterStep Q M R))) =
      Except.error
        "AttributeError: object has no attribute two_body_tensor" ∧
    (LowRankTrotterAlgorithm.controlled_asymmetric alg decompose prepare
        (HamiltonianInput.other payload) :
      Except String (Option (LowRankTrotterStep Q M R))) =
      Except.error
        "AttributeError: object has no attribute two_body_tensor" ∧
    (LowRankTrotterAlgorithm.asymmetric alg decompose prepare
        (HamiltonianInput.interactionOperator h :
          HamiltonianInput R T O) :
      Except String (Option (LowRankTrotterStep Q M R))) =
      Except.ok (some (LowRankTrotterStep.build h
        alg.truncation_threshold alg.final_rank alg.spin_basis decompose
        prepare)) ∧
    (LowRankTrotterAlgorithm.controlled_asymmetric alg decompose prepare
        (HamiltonianInput.interactionOperator h :
          HamiltonianInput R T O) :
      Except String (Option (LowRankTrotterStep Q M R))) =
      Except.ok (some (LowRankTrotterStep.build h
        alg.truncation_threshold alg.final_rank alg.spin_basis decompose
        prepare)) := ⟨rfl, rfl, rfl, rfl⟩

/-- Claim C9.  Invoking the controlled variant's `trotter_step` with no
control qubit fails with an error and produces no operations, for every
step object, qubit ordering and time. -/
theorem controlled_trotter_step_requires_control {Q M R : Type} [Ring R]
    (s : LowRankTrotterStep Q M R) (mops : MatOps M) (qubits : List Q)
    (time : R) :
    ControlledAsymmetricLowRankTrotterStep.trotter_step s mops qubits
        time none =
      Except.error
        "the controlled Trotter step requires a control qubit" := rfl

/-- Claim C10.  The uncontrolled `step_qubit_permutation` always returns
`None` as the control-qubit component, even when a control qubit is
supplied, while the controlled variant passes the supplied control qubit
through unchanged. -/
theorem step_qubit_permutation_control_component {Q M R : Type}
    (s : LowRankTrotterStep Q M R) (qubits : List Q) (c : Option Q) :
    (AsymmetricLowRankTrotterStep.step_qubit_permutation s qubits c).2 =
      none ∧
    (ControlledAsymmetricLowRankTrotterStep.step_qubit_permutation s
        qubits c).2 = c := by
  constructor <;>
  · simp only [AsymmetricLowRankTrotterStep.step_qubit_permutation,
      ControlledAsymmetricLowRankTrotterStep.step_qubit_permutation]
    split <;> rfl
